import Mathlib

/-!
# Lead Finder Pro — verification of the response-parsing and orchestration core

A shallow embedding, in Lean, of the parsing / reconciliation / export layer of
the Lead Finder Pro web client, translated from `src/services/geminiService.ts`
and `src/App.tsx`:

* the Lead Parser (`parseLeads`): delimited markdown → business records;
* the Batch Geocoder (`geocodeAddresses`) and the merge step of the search
  flow (`searchMerge`);
* the Contact Extractor (`scrapeContacts`) and the "scrape all" loop
  (`handleScrapeAll`);
* the CSV export cell encoder (`escapeCsvCell`).

JavaScript strings are modelled as `List Char` (the code only uses ASCII-level
operations: `toLowerCase`, `trim`, `split`, `includes`, `substring` after
`indexOf(':')`, `replace`).  All string helpers below are structurally
recursive so that every definition evaluates by `decide`.

JavaScript numbers produced by `parseFloat` / `parseInt` are modelled exactly
as decimal values `JsNum` (mantissa and a power-of-ten exponent); the inputs
parsed here are short decimal literals, for which IEEE-754 rounding never
distinguishes values that this exact model identifies in the claims below.
`parseFloat`'s `NaN` is `Option.none`.  The special string "Infinity" (never
produced by the backends modelled here) is not modelled.

The asynchronous backend (the Gemini API) is an external collaborator: each
call site takes the backend's already-received answer — or its failure — as an
explicit argument (`Except`/`Option`), exactly where the TypeScript `await`s
and `try`/`catch`es sit.
-/

/-- Equality on `Except` results is decidable componentwise. -/
instance {ε α : Type} [DecidableEq ε] [DecidableEq α] : DecidableEq (Except ε α)
  | .ok a, .ok b =>
    if h : a = b then .isTrue (by rw [h]) else .isFalse (by simp [h])
  | .error a, .error b =>
    if h : a = b then .isTrue (by rw [h]) else .isFalse (by simp [h])
  | .ok _, .error _ => .isFalse (by simp)
  | .error _, .ok _ => .isFalse (by simp)

namespace LeadFinderPro

/-! ## JavaScript string primitives (on `List Char`) -/

/-- `pat` is a prefix of `l` (character-wise). -/
def startsWithL : List Char → List Char → Bool
  | [], _ => true
  | _ :: _, [] => false
  | p :: ps, c :: cs => p == c && startsWithL ps cs

/-- JS `String.prototype.includes(pat)`: `pat` occurs as a contiguous
substring.  (`pat` is nonempty at every use site below.) -/
def containsSub (pat : List Char) : List Char → Bool
  | [] => pat.isEmpty
  | c :: cs => startsWithL pat (c :: cs) || containsSub pat cs

/-- JS `String.prototype.trim()` (the whitespace the inputs here contain:
space, tab, CR, LF). -/
def trimL (cs : List Char) : List Char :=
  ((cs.dropWhile Char.isWhitespace).reverse.dropWhile Char.isWhitespace).reverse

/-- JS `split(sep)` for a one-character separator (used with `'\n'`, `','`).
Like JS, `[] ↦ [[]]`. -/
def splitOnCharL (sep : Char) : List Char → List (List Char)
  | [] => [[]]
  | c :: cs =>
    if c = sep then [] :: splitOnCharL sep cs
    else
      match splitOnCharL sep cs with
      | [] => [[c]]
      | h :: t => (c :: h) :: t

/-- JS `markdown.split('---')`: split on the literal three-dash delimiter,
leftmost non-overlapping occurrences. -/
def splitDashes : List Char → List (List Char)
  | '-' :: '-' :: '-' :: cs => [] :: splitDashes cs
  | c :: cs =>
    match splitDashes cs with
    | [] => [[c]]
    | h :: t => (c :: h) :: t
  | [] => [[]]

/-- JS `name.replace(/\*\*/g, '')`: delete every (leftmost, non-overlapping)
occurrence of `**`. -/
def stripStars : List Char → List Char
  | '*' :: '*' :: cs => stripStars cs
  | c :: cs => c :: stripStars cs
  | [] => []

/-- JS `s.replace(/"/g, '""')`: double every double-quote character. -/
def doubleQuotes : List Char → List Char
  | '"' :: cs => '"' :: '"' :: doubleQuotes cs
  | c :: cs => c :: doubleQuotes cs
  | [] => []

/-- JS `line.substring(line.indexOf(':') + 1)`: everything after the first
colon — and, as in JS (where `indexOf` returns `-1`), the whole line when it
has no colon. -/
def afterFirstColon (cs : List Char) : List Char :=
  match colonSplit cs with
  | some rest => rest
  | none => cs
where
  /-- The suffix after the first `':'`, if any. -/
  colonSplit : List Char → Option (List Char)
    | [] => none
    | ':' :: cs => some cs
    | _ :: cs => colonSplit cs

/-- JS truthiness of an optional string (`undefined` and `""` are falsy). -/
def truthyStr : Option String → Bool
  | none => false
  | some s => s ≠ ""

/-! ## JavaScript numbers from `parseFloat` / `parseInt` -/

/-- An exact decimal: the value `num · 10 ^ exp10`.  `parseFloat` on the
decimal literals handled here is modelled exactly (no IEEE-754 rounding);
equality of `JsNum` is equality of the parsed representation. -/
structure JsNum where
  num : Int
  exp10 : Int
deriving DecidableEq, Repr

/-- The rational value of a `JsNum`. -/
def JsNum.toRat (x : JsNum) : ℚ :=
  if 0 ≤ x.exp10 then (x.num : ℚ) * (10 : ℚ) ^ x.exp10.toNat
  else (x.num : ℚ) / (10 : ℚ) ^ (-x.exp10).toNat

/-- The natural number denoted by a digit run (used for `parseInt` on the
`\d+` capture, and for mantissas). -/
def digitsToNat (ds : List Char) : ℕ :=
  ds.foldl (fun n c => 10 * n + (c.toNat - 48)) 0

/-- An optional leading sign: `(negative?, rest)`. -/
def signParse : List Char → Bool × List Char
  | '-' :: cs => (true, cs)
  | '+' :: cs => (false, cs)
  | cs => (false, cs)

/-- The exponent suffix `e`/`E` `[+-]` digits of a JS float literal; `0` when
absent or without digits (JS `parseFloat` then ignores it). -/
def expVal : List Char → Int
  | c :: cs =>
    if c = 'e' ∨ c = 'E' then
      let (neg, cs1) := signParse cs
      let ds := cs1.takeWhile Char.isDigit
      if ds.isEmpty then 0
      else if neg then -(Int.ofNat (digitsToNat ds)) else Int.ofNat (digitsToNat ds)
    else 0
  | [] => 0

/-- JS `parseFloat`: skip leading whitespace, optional sign, digits, optional
`.` and fraction digits, optional exponent; `none` (JS `NaN`) when no digit
was read.  Trailing garbage is ignored, as in JS. -/
def jsParseFloat (cs : List Char) : Option JsNum :=
  let cs1 := cs.dropWhile Char.isWhitespace
  let (neg, cs2) := signParse cs1
  let (ip, cs3) := cs2.span Char.isDigit
  let (fp, cs4) :=
    match cs3 with
    | '.' :: rest => rest.span Char.isDigit
    | _ => (([] : List Char), cs3)
  if ip.isEmpty && fp.isEmpty then none
  else
    let mant : Int := Int.ofNat (digitsToNat (ip ++ fp))
    let mant : Int := if neg then -mant else mant
    some { num := mant, exp10 := expVal cs4 - Int.ofNat fp.length }

/-! ## Data model (`src/types.ts` as the code uses it) -/

/-- The contact data returned by a successful scrape (`ScrapedData`). -/
structure ScrapedData where
  emails : List String
  phones : List String
  socials : List String
deriving DecidableEq, Repr

/-- A coordinate pair (`LatLng`). -/
structure LatLng where
  latitude : JsNum
  longitude : JsNum
deriving DecidableEq, Repr

/-- One business lead (`Business`).  Optional TS fields are `Option`;
`isScraping` is the transient per-card flag. -/
structure Business where
  id : String
  name : String
  address : String
  type : String
  phone : Option String := none
  website : Option String := none
  rating : Option JsNum := none
  reviews : Option Nat := none
  latitude : Option JsNum := none
  longitude : Option JsNum := none
  scrapedData : Option ScrapedData := none
  scrapeError : Option String := none
  isScraping : Bool := false
deriving DecidableEq, Repr

/-! ## Lead Parser (`parseLeads`, geminiService.ts:19-78) -/

/-- First match of the rating regex `/(\d\.\d|\d)/`: at each position try
`\d\.\d`, then `\d`; the leftmost match wins.  So `"4.5"` matches `"4.5"`
but `"10"` matches only `"1"`. -/
def ratingMatchTok : List Char → Option (List Char)
  | c1 :: '.' :: c2 :: rest =>
    if c1.isDigit then
      if c2.isDigit then some [c1, '.', c2] else some [c1]
    else ratingMatchTok ('.' :: c2 :: rest)
  | c :: cs => if c.isDigit then some [c] else ratingMatchTok cs
  | [] => none

/-- First match of the reviews regex `/\((\d+)/`: the capture group of the
leftmost `(` that is immediately followed by at least one digit. -/
def reviewsMatchTok : List Char → Option (List Char)
  | '(' :: cs =>
    let ds := cs.takeWhile Char.isDigit
    if ds.isEmpty then reviewsMatchTok cs else some ds
  | _ :: cs => reviewsMatchTok cs
  | [] => none

/-- The `Business` a segment starts from: the name line parsed, every other
field at its TS default (geminiService.ts:29-34). -/
def initLead (id name : String) : Business :=
  { id := id, name := name, address := "", type := "" }

/-- One iteration of the `lines.slice(1).forEach` scanner
(geminiService.ts:37-69): classify the line by case-insensitive substring
match, in the source's `else if` order, and set the matching field from the
text after the line's first colon.

In the rating branch, `lead.rating = parseFloat(ratingMatch[0])` is modelled
by `rating := jsParseFloat tok`; the matched token starts with a digit, so
the parse never yields `none` (`jsParseFloat_ratingTok`). -/
def applyLine (lead : Business) (line : List Char) : Business :=
  let lowerLine := line.map Char.toLower
  if containsSub "address:".data lowerLine then
    { lead with address := String.mk (trimL (afterFirstColon line)) }
  else if containsSub "type:".data lowerLine || containsSub "category:".data lowerLine then
    { lead with type := String.mk (trimL (afterFirstColon line)) }
  else if containsSub "phone:".data lowerLine then
    { lead with phone := some (String.mk (trimL (afterFirstColon line))) }
  else if containsSub "website:".data lowerLine then
    { lead with website := some (String.mk (trimL (afterFirstColon line))) }
  else if containsSub "coordinates:".data lowerLine then
    let coordsText := trimL (afterFirstColon line)
    let toks := (splitOnCharL ',' coordsText).map (fun c => jsParseFloat (trimL c))
    match toks[0]?, toks[1]? with
    | some (some lat), some (some lng) =>
      { lead with latitude := some lat, longitude := some lng }
    | _, _ => lead
  else if containsSub "rating:".data lowerLine then
    let ratingText := trimL (afterFirstColon line)
    let lead1 :=
      match ratingMatchTok ratingText with
      | some tok => { lead with rating := jsParseFloat tok }
      | none => lead
    match reviewsMatchTok ratingText with
    | some ds => { lead1 with reviews := some (digitsToNat ds) }
    | none => lead1
  else lead

/-- The lines of one segment: `bizText.trim().split('\n')`. -/
def segLines (bizText : List Char) : List (List Char) :=
  splitOnCharL '\n' (trimL bizText)

/-- The name from a segment's first line: `lines[0].replace(/\*\*/g, '').trim()`. -/
def segName (bizText : List Char) : String :=
  String.mk (trimL (stripStars ((segLines bizText).headD [])))

/-- The record a segment's scan produces (before the name/address guard). -/
def scanSegment (id : String) (bizText : List Char) : Business :=
  (segLines bizText).tail.foldl applyLine (initLead id (segName bizText))

/-- One segment of the `businesses.forEach` body: the scanned record, kept
only when name and address are both truthy — `if (lead.name && lead.address)`
(geminiService.ts:72-74); otherwise the segment is silently dropped. -/
def parseSegment (id : String) (bizText : List Char) : Option Business :=
  if (scanSegment id bizText).name ≠ "" ∧ (scanSegment id bizText).address ≠ "" then
    some (scanSegment id bizText)
  else none

/-- `markdown.split('---').filter(b => b.trim() !== '')`. -/
def segments (markdown : String) : List (List Char) :=
  (splitDashes markdown.data).filter (fun b => trimL b ≠ [])

/-- The id `` `${Date.now()}-${index}` ``; `now` stands for the clock value. -/
def mkId (now idx : ℕ) : String :=
  toString now ++ "-" ++ toString idx

/-- The Lead Parser (geminiService.ts:19-78): split on `---`, drop blank
segments, scan each, keep the segments that pass the name/address guard. -/
def parseLeads (now : ℕ) (markdown : String) : List Business :=
  (segments markdown).enum.filterMap (fun p => parseSegment (mkId now p.1) p.2)

/-! ## Batch Geocoder (`geocodeAddresses`, geminiService.ts:181-228) -/

/-- A JSON scalar as it can appear under `latitude`/`longitude` in the
geocode response object. -/
inductive JVal
  | num (n : JsNum)
  | str (s : String)
  | bool (b : Bool)
  | null
deriving DecidableEq, Repr

/-- JS truthiness of `data[id].latitude` (`undefined`, `0`, `""`, `false`,
`null` are falsy). -/
def truthyJV : Option JVal → Bool
  | none => false
  | some (.num n) => n.num ≠ 0
  | some (.str s) => s ≠ ""
  | some (.bool b) => b
  | some .null => false

/-- `parseFloat(v)` on a JSON scalar: a number re-parses to itself, a string
goes through `parseFloat`, `null`/booleans stringify to non-numeric text
(`NaN`, i.e. `none`). -/
def jsParseFloatJV : Option JVal → Option JsNum
  | some (.num n) => some n
  | some (.str s) => jsParseFloat s.data
  | _ => none

/-- One value of the parsed geocode response object: the (possibly missing)
`latitude` and `longitude` properties. -/
structure GeoEntry where
  latitude : Option JVal := none
  longitude : Option JVal := none
deriving DecidableEq, Repr

/-- The geocode backend interaction, as seen after `await` and `JSON.parse`:
`.error` when the call threw or the response was unparsable JSON, `.ok` the
parsed object (an association list; keys of a parsed JSON object are
unique). -/
def GeoResp := Except Unit (List (String × GeoEntry))

/-- The failed geocode interaction (backend threw, or `JSON.parse` threw). -/
def geoFail : GeoResp := .error ()

/-- The body of the `for (const id in data)` loop: keep the pair only when
both properties are truthy *and* both `parseFloat` results are numbers
(geminiService.ts:212-221). -/
def geoAccept (e : GeoEntry) : Option LatLng :=
  if truthyJV e.latitude && truthyJV e.longitude then
    match jsParseFloatJV e.latitude, jsParseFloatJV e.longitude with
    | some lat, some lng => some { latitude := lat, longitude := lng }
    | _, _ => none
  else none

/-- `geocodeAddresses` (geminiService.ts:181-228): empty input short-circuits
to an empty map with no backend call; a failed interaction is caught and
returns an empty map; otherwise the response object is filtered by
`geoAccept`.  The returned `Map` is modelled as its association list. -/
def geocodeAddresses (businesses : List (String × String)) (resp : GeoResp) :
    List (String × LatLng) :=
  if businesses.isEmpty then []
  else
    match resp with
    | .error _ => []
    | .ok data => data.filterMap (fun p => (geoAccept p.2).map (fun c => (p.1, c)))

/-! ## Search flow after the initial results (`handleSearch`, App.tsx:681-714) -/

/-- `coordinatesMap.get(lead.id)` (JSON object keys are unique, so first
match is the match). -/
def lookupCoords (cmap : List (String × LatLng)) (id : String) : Option LatLng :=
  match cmap.find? (fun p => p.1 = id) with
  | some p => some p.2
  | none => none

/-- Step 2 of `handleSearch`: the leads needing geocoding —
`lead.address && (lead.latitude == null || lead.longitude == null)` —
projected to `{id, address}` (App.tsx:684-686). -/
def toGeocode (initialResults : List Business) : List (String × String) :=
  (initialResults.filter
      (fun lead => lead.address ≠ "" ∧ (lead.latitude = none ∨ lead.longitude = none))).map
    (fun lead => (lead.id, lead.address))

/-- Step 4 of `handleSearch`: merge returned coordinates into the matching
records by id; records absent from the map are unchanged (App.tsx:692-698). -/
def mergeCoords (initialResults : List Business) (cmap : List (String × LatLng)) :
    List Business :=
  initialResults.map (fun lead =>
    match lookupCoords cmap lead.id with
    | some coords =>
      { lead with latitude := some coords.latitude, longitude := some coords.longitude }
    | none => lead)

/-- Steps 2-4 of `handleSearch` as one function of the parsed results and the
geocode interaction: what `setLeads` receives (App.tsx:683-702). -/
def searchMerge (initialResults : List Business) (resp : GeoResp) : List Business :=
  if (toGeocode initialResults).length > 0 then
    mergeCoords initialResults (geocodeAddresses (toGeocode initialResults) resp)
  else initialResults

/-! ## Contact Extractor (`scrapeContacts`, geminiService.ts:133-173) -/

/-- The schema-validated JSON body of a successful extract-contacts call:
each of the three keys may be missing (`undefined`). -/
structure ScrapeRaw where
  emails : Option (List String) := none
  phones : Option (List String) := none
  socials : Option (List String) := none
deriving DecidableEq, Repr

/-- The backend as the Contact Extractor sees it: for a URL, either a parsed
JSON body or a failure (`none` = the call threw or `JSON.parse` threw). -/
def ScrapeOracle := String → Option ScrapeRaw

/-- `scrapeContacts` (geminiService.ts:133-173): reject an empty or
non-`http` URL before any backend call; on success return the parsed arrays
with missing keys defaulted to `[]` (`data.emails || []`); wrap a backend
failure in the per-URL error message. -/
def scrapeContacts (oracle : ScrapeOracle) (websiteUrl : String) :
    Except String ScrapedData :=
  if websiteUrl = "" ∨ ¬ startsWithL "http".data websiteUrl.data then
    .error "Invalid or missing website URL."
  else
    match oracle websiteUrl with
    | none => .error ("Failed to scrape contacts for " ++ websiteUrl ++ ".")
    | some data =>
      .ok { emails := data.emails.getD [], phones := data.phones.getD [],
            socials := data.socials.getD [] }

/-! ## Scrape orchestration (`handleScrape` / `handleScrapeAll`, App.tsx:717-792) -/

/-- The first `setLeads` of `handleScrape`: mark the record in progress and
clear its previous error (App.tsx:719-721). -/
def scrapeStart (businessId : String) (leads : List Business) : List Business :=
  leads.map (fun lead =>
    if lead.id = businessId then { lead with isScraping := true, scrapeError := none }
    else lead)

/-- The completion `setLeads` of `handleScrape`: store the scraped data, or
the caught error's message (App.tsx:724-734). -/
def scrapeFinish (businessId : String) (result : Except String ScrapedData)
    (leads : List Business) : List Business :=
  leads.map (fun lead =>
    if lead.id = businessId then
      match result with
      | .ok scrapedData => { lead with isScraping := false, scrapedData := some scrapedData }
      | .error msg => { lead with isScraping := false, scrapeError := some msg }
    else lead)

/-- `handleScrape` for one record: start, await `scrapeContacts`, finish. -/
def handleScrape (oracle : ScrapeOracle) (businessId websiteUrl : String)
    (leads : List Business) : List Business :=
  scrapeFinish businessId (scrapeContacts oracle websiteUrl) (scrapeStart businessId leads)

/-- The `handleScrapeAll` guard:
`lead.website && !lead.scrapedData && !lead.scrapeError` (App.tsx:787). -/
def scrapeAllGuard (lead : Business) : Bool :=
  truthyStr lead.website && lead.scrapedData.isNone && !truthyStr lead.scrapeError

/-- Whether `scrapeContacts` reaches the backend for this URL: exactly when
the URL validation passes. -/
def backendCalled (websiteUrl : String) : Bool :=
  ¬ (websiteUrl = "" ∨ ¬ startsWithL "http".data websiteUrl.data)

/-- The `for (const lead of leads)` loop of `handleScrapeAll`: `snap` is the
array captured by the closure (guards and arguments are read from it), `cur`
the evolving state.  Also counts the backend calls made. -/
def scrapeAllGo (oracle : ScrapeOracle) : List Business → List Business →
    List Business × ℕ
  | [], cur => (cur, 0)
  | lead :: rest, cur =>
    if scrapeAllGuard lead then
      ((scrapeAllGo oracle rest (handleScrape oracle lead.id (lead.website.getD "") cur)).1,
        (if backendCalled (lead.website.getD "") then 1 else 0) +
          (scrapeAllGo oracle rest (handleScrape oracle lead.id (lead.website.getD "") cur)).2)
    else scrapeAllGo oracle rest cur

/-- One "scrape all" run over the current result set (App.tsx:783-792):
the final result set and the number of backend calls. -/
def handleScrapeAll (oracle : ScrapeOracle) (leads : List Business) :
    List Business × ℕ :=
  scrapeAllGo oracle leads leads

/-! ## Export Encoder (`escapeCsvCell`, App.tsx:748-761) -/

/-- The characters the CSV injection guard checks `charAt(0)` against. -/
def formulaChars : List Char := ['=', '+', '-', '@']

/-- The comma stage of `escapeCsvCell`: wrap in double quotes, doubling
internal double quotes, exactly when the value contains a comma
(App.tsx:757-760). -/
def commaStage (s : String) : String :=
  if containsSub [','] s.data then "\"" ++ String.mk (doubleQuotes s.data) ++ "\""
  else s

/-- `escapeCsvCell` (App.tsx:748-761): first the formula-injection guard —
prepend `'` when the first character is one of `= + - @` — then the comma
stage on the possibly-prefixed value. -/
def escapeCsvCell (cellData : String) : String :=
  let stringData :=
    match cellData.data with
    | c :: _ => if c ∈ formulaChars then "'" ++ cellData else cellData
    | [] => cellData
  commaStage stringData

/-! ## Classification view of the line scanner (for the scanner theorems) -/

/-- The field a scanned line is classified to, in the source's `else if`
order; `none` for an unrecognized line (silently ignored). -/
inductive LineField
  | address
  | typeField
  | phone
  | website
  | coords
  | rating
deriving DecidableEq, Repr

/-- `lineClass line`: which branch of `applyLine` fires on `line`. -/
def lineClass (line : List Char) : Option LineField :=
  let lowerLine := line.map Char.toLower
  if containsSub "address:".data lowerLine then some .address
  else if containsSub "type:".data lowerLine || containsSub "category:".data lowerLine then
    some .typeField
  else if containsSub "phone:".data lowerLine then some .phone
  else if containsSub "website:".data lowerLine then some .website
  else if containsSub "coordinates:".data lowerLine then some .coords
  else if containsSub "rating:".data lowerLine then some .rating
  else none

/-- The coordinates branch of `applyLine`, as a function of the line. -/
def coordsApply (line : List Char) (lead : Business) : Business :=
  let coordsText := trimL (afterFirstColon line)
  let toks := (splitOnCharL ',' coordsText).map (fun c => jsParseFloat (trimL c))
  match toks[0]?, toks[1]? with
  | some (some lat), some (some lng) =>
    { lead with latitude := some lat, longitude := some lng }
  | _, _ => lead

/-- The rating branch of `applyLine`, as a function of the line. -/
def ratingApply (line : List Char) (lead : Business) : Business :=
  let ratingText := trimL (afterFirstColon line)
  let lead1 :=
    match ratingMatchTok ratingText with
    | some tok => { lead with rating := jsParseFloat tok }
    | none => lead
  match reviewsMatchTok ratingText with
  | some ds => { lead1 with reviews := some (digitsToNat ds) }
  | none => lead1

/-- `applyLine` factored through the line's classification. -/
def applyClass : Option LineField → List Char → Business → Business
  | some .address, line, lead => { lead with address := String.mk (trimL (afterFirstColon line)) }
  | some .typeField, line, lead => { lead with type := String.mk (trimL (afterFirstColon line)) }
  | some .phone, line, lead => { lead with phone := some (String.mk (trimL (afterFirstColon line))) }
  | some .website, line, lead => { lead with website := some (String.mk (trimL (afterFirstColon line))) }
  | some .coords, line, lead => coordsApply line lead
  | some .rating, line, lead => ratingApply line lead
  | none, _, lead => lead

/-- `applyLine` updates exactly the field its line classifies to. -/
theorem applyLine_eq_applyClass (lead : Business) (line : List Char) :
    applyLine lead line = applyClass (lineClass line) line lead := by
  unfold applyLine lineClass applyClass coordsApply ratingApply
  by_cases h1 : containsSub "address:".data (line.map Char.toLower) = true
  · simp [h1]
  · simp only [h1]
    by_cases h2 : (containsSub "type:".data (line.map Char.toLower) ||
        containsSub "category:".data (line.map Char.toLower)) = true
    · simp [h2]
    · simp only [h2]
      by_cases h3 : containsSub "phone:".data (line.map Char.toLower) = true
      · simp [h3]
      · simp only [h3]
        by_cases h4 : containsSub "website:".data (line.map Char.toLower) = true
        · simp [h4]
        · simp only [h4]
          by_cases h5 : containsSub "coordinates:".data (line.map Char.toLower) = true
          · simp [h5]
          · simp only [h5]
            by_cases h6 : containsSub "rating:".data (line.map Char.toLower) = true
            · simp [h6]
            · simp [h1, h2, h3, h4, h5, h6]

/-! ## C1 — formula-injection guard of the CSV encoder -/

/-- C1.  Whenever a cell value's first character is one of `= + - @`, the
CSV cell encoder emits the value with a single quote prepended, and only then
applies the comma-quoting stage to the prefixed value. -/
theorem escapeCsvCell_formula_quote_prefix (s : String) (c : Char)
    (h1 : s.data.head? = some c) (h2 : c ∈ formulaChars) :
    escapeCsvCell s = commaStage ("'" ++ s) := by
  unfold escapeCsvCell
  cases hd : s.data with
  | nil => rw [hd] at h1; cases h1
  | cons c0 rest =>
    rw [hd] at h1
    simp only [List.head?] at h1
    cases h1
    simp [hd, h2]

/-- C1, witness: the spec's own example `"=cmd"` comes out as `'=cmd`. -/
theorem escapeCsvCell_formula_quote_prefix_witness : escapeCsvCell "=cmd" = "'=cmd" := by
  have h := escapeCsvCell_formula_quote_prefix "=cmd" '=' (by decide) (by decide)
  rw [h]; decide

/-! ## C10 — the comma is the only trigger for CSV quoting -/

/-- Searching for a one-character pattern steps over the head character. -/
theorem containsSub_single_cons (p c : Char) (cs : List Char) :
    containsSub [p] (c :: cs) = ((p == c) || containsSub [p] cs) := by
  cases hpc : p == c <;> simp [containsSub, startsWithL, hpc]

/-- C10, counterexample to the claim as stated: `"=a\"b"` contains a double
quote and no comma, yet is not emitted verbatim — the formula-injection guard
prepends a quote first. -/
theorem csv_quote_cell_not_verbatim :
    containsSub ['"'] "=a\"b".data = true ∧
    containsSub [','] "=a\"b".data = false ∧
    escapeCsvCell "=a\"b" ≠ "=a\"b" ∧
    escapeCsvCell "=a\"b" = "'=a\"b" := by decide

/-- C10 as amended: on a comma-free value (in particular one containing
double quotes or newlines), the encoder never wraps in double quotes and
never doubles internal quotes: the output is the value itself, or the value
with a single leading quote when its first character is in `= + - @`. -/
theorem csv_no_comma_no_quote_wrap (s : String)
    (_hq : containsSub ['"'] s.data = true ∨ containsSub ['\n'] s.data = true)
    (hc : containsSub [','] s.data = false) :
    escapeCsvCell s = s ∨ escapeCsvCell s = "'" ++ s := by
  unfold escapeCsvCell commaStage
  cases hd : s.data with
  | nil => left; simp [hc]
  | cons c0 rest =>
    have hct : containsSub [','] (c0 :: rest) = false := by rw [← hd]; exact hc
    by_cases hf : c0 ∈ formulaChars
    · right
      have hc3 : containsSub [','] ('\'' :: c0 :: rest) = false := by
        rw [containsSub_single_cons]
        simp [hct]
      simp [hd, hf, hc3]
    · left
      simp [hd, hf, hct, hc]

/-- C10, witness for the amended statement: `"a\"b"` (quote, no comma, no
formula character) passes through unchanged. -/
theorem csv_no_comma_no_quote_wrap_witness :
    escapeCsvCell "a\"b" = "a\"b" ∨ escapeCsvCell "a\"b" = "'" ++ "a\"b" :=
  csv_no_comma_no_quote_wrap "a\"b" (Or.inl (by decide)) (by decide)

/-! ## C4 — geocoding failure is fail-soft for the search flow -/

/-- C4.  A failed geocode interaction (backend threw, or unparsable response)
yields an empty mapping rather than an error, and the search flow's merge
step then returns the parsed record set unchanged — every record is kept,
merely without new coordinates. -/
theorem geocode_fail_soft :
    (∀ businesses, geocodeAddresses businesses geoFail = []) ∧
    (∀ initialResults, searchMerge initialResults geoFail = initialResults) := by
  have h1 : ∀ businesses, geocodeAddresses businesses geoFail = [] := by
    intro businesses
    unfold geocodeAddresses geoFail
    split <;> rfl
  refine ⟨h1, ?_⟩
  intro initialResults
  unfold searchMerge
  split
  · rw [h1]
    unfold mergeCoords lookupCoords
    simp
  · rfl

/-! ## C2 — latitude and longitude are set atomically, everywhere -/

/-- The scanner sets `latitude` and `longitude` only as a pair. -/
theorem applyLine_paired (lead : Business) (line : List Char)
    (h : lead.latitude.isSome = lead.longitude.isSome) :
    (applyLine lead line).latitude.isSome = (applyLine lead line).longitude.isSome := by
  rw [applyLine_eq_applyClass]
  cases hcl : lineClass line with
  | none => simpa [applyClass] using h
  | some f =>
    cases f
    case address => simpa [applyClass] using h
    case typeField => simpa [applyClass] using h
    case phone => simpa [applyClass] using h
    case website => simpa [applyClass] using h
    case coords =>
      simp only [applyClass, coordsApply]
      split
      · simp
      · exact h
    case rating =>
      simp only [applyClass, ratingApply]
      split <;> split <;> simpa using h

/-- A scrape update never touches the coordinate fields. -/
theorem handleScrape_paired (oracle : ScrapeOracle) (bid url : String)
    (cur : List Business)
    (hall : ∀ x ∈ cur, x.latitude.isSome = x.longitude.isSome) :
    ∀ l ∈ handleScrape oracle bid url cur,
      l.latitude.isSome = l.longitude.isSome := by
  intro l hl
  unfold handleScrape scrapeFinish scrapeStart at hl
  rw [List.map_map] at hl
  rcases List.mem_map.mp hl with ⟨x0, hx0, rfl⟩
  have hp := hall x0 hx0
  by_cases hid : x0.id = bid
  · simp only [Function.comp_apply, hid, if_true, if_pos]
    cases scrapeContacts oracle url <;> simpa using hp
  · simpa [Function.comp, hid] using hp

/-- The pairing survives a whole segment scan. -/
theorem foldl_applyLine_paired (lines : List (List Char)) (lead : Business)
    (h : lead.latitude.isSome = lead.longitude.isSome) :
    (lines.foldl applyLine lead).latitude.isSome =
      (lines.foldl applyLine lead).longitude.isSome := by
  induction lines generalizing lead with
  | nil => simpa using h
  | cons l ls ih => exact ih _ (applyLine_paired _ _ h)

/-- C2.  In every component that creates or rewrites records — the Lead
Parser, the geocode merge of the search flow, and the scrape updates — a
record has a latitude exactly when it has a longitude; no reachable record
carries only one coordinate. -/
theorem coords_all_or_nothing :
    (∀ now markdown lead, lead ∈ parseLeads now markdown →
      lead.latitude.isSome = lead.longitude.isSome) ∧
    (∀ initialResults cmap lead,
      (∀ x ∈ initialResults, x.latitude.isSome = x.longitude.isSome) →
      lead ∈ mergeCoords initialResults cmap →
      lead.latitude.isSome = lead.longitude.isSome) ∧
    (∀ initialResults resp lead,
      (∀ x ∈ initialResults, x.latitude.isSome = x.longitude.isSome) →
      lead ∈ searchMerge initialResults resp →
      lead.latitude.isSome = lead.longitude.isSome) ∧
    (∀ oracle snap cur lead,
      (∀ x ∈ cur, x.latitude.isSome = x.longitude.isSome) →
      lead ∈ (scrapeAllGo oracle snap cur).1 →
      lead.latitude.isSome = lead.longitude.isSome) := by
  have hparse : ∀ now markdown lead, lead ∈ parseLeads now markdown →
      lead.latitude.isSome = lead.longitude.isSome := by
    intro now markdown lead hmem
    unfold parseLeads at hmem
    rcases List.mem_filterMap.mp hmem with ⟨p, _, hsome⟩
    unfold parseSegment at hsome
    split at hsome
    · cases hsome
      exact foldl_applyLine_paired _ _ rfl
    · cases hsome
  have hmerge : ∀ initialResults cmap lead,
      (∀ x ∈ initialResults, x.latitude.isSome = x.longitude.isSome) →
      lead ∈ mergeCoords initialResults cmap →
      lead.latitude.isSome = lead.longitude.isSome := by
    intro initialResults cmap lead hall hmem
    unfold mergeCoords at hmem
    rcases List.mem_map.mp hmem with ⟨x, hx, rfl⟩
    split
    · rfl
    · exact hall x hx
  have hscrape : ∀ oracle snap cur lead,
      (∀ x ∈ cur, x.latitude.isSome = x.longitude.isSome) →
      lead ∈ (scrapeAllGo oracle snap cur).1 →
      lead.latitude.isSome = lead.longitude.isSome := by
    intro oracle snap
    induction snap with
    | nil => intro cur lead hall hmem; exact hall lead hmem
    | cons s rest ih =>
      intro cur lead hall hmem
      by_cases hg : scrapeAllGuard s = true
      · simp only [scrapeAllGo, if_pos hg] at hmem
        exact ih _ lead (handleScrape_paired _ _ _ _ hall) hmem
      · simp only [scrapeAllGo, if_neg hg] at hmem
        exact ih _ lead hall hmem
  refine ⟨hparse, hmerge, ?_, hscrape⟩
  intro initialResults resp lead hall hmem
  unfold searchMerge at hmem
  split at hmem
  · exact hmerge _ _ _ hall hmem
  · exact hall lead hmem

/-! ## C3 — lenient parsing: bounded output, required fields, silent drops -/

/-- C3.  The Lead Parser returns at most one record per `---`-separated
segment, every returned record has a non-empty name and a non-empty address,
and a segment whose scan leaves the address empty yields no record at all —
it is dropped, with no error (the parser is total). -/
theorem parseLeads_lenient (now : ℕ) (markdown : String) :
    (parseLeads now markdown).length ≤ (splitDashes markdown.data).length ∧
    (∀ lead ∈ parseLeads now markdown, lead.name ≠ "" ∧ lead.address ≠ "") ∧
    (∀ id bizText, (scanSegment id bizText).address = "" →
      parseSegment id bizText = none) := by
  refine ⟨?_, ?_, ?_⟩
  · calc (parseLeads now markdown).length
        ≤ (segments markdown).enum.length :=
          List.length_filterMap_le _ _
      _ = (segments markdown).length := List.enum_length
      _ ≤ (splitDashes markdown.data).length := List.length_filter_le _ _
  · intro lead hmem
    unfold parseLeads at hmem
    rcases List.mem_filterMap.mp hmem with ⟨p, _, hsome⟩
    unfold parseSegment at hsome
    split at hsome
    · cases hsome; assumption
    · cases hsome
  · intro id bizText haddr
    unfold parseSegment
    rw [if_neg]
    intro hcon
    exact hcon.2 haddr

/-! ## C5 — which geocode pairs are accepted -/

/-- C5, counterexample to the claim as stated: a pair with numeric latitude
`0` parses as a number on both sides, yet is dropped — the truthiness guard
`data[id].latitude && data[id].longitude` rejects the number `0` before
`parseFloat` is consulted. -/
theorem geocode_zero_latitude_dropped :
    jsParseFloatJV (some (.num ⟨0, 0⟩)) = some ⟨0, 0⟩ ∧
    jsParseFloatJV (some (.num ⟨5, 0⟩)) = some ⟨5, 0⟩ ∧
    geocodeAddresses [("a", "addr")]
      (.ok [("a", { latitude := some (.num ⟨0, 0⟩), longitude := some (.num ⟨5, 0⟩) })])
      = [] := by decide

/-- `geoAccept` accepts exactly the truthy-and-numeric pairs. -/
theorem geoAccept_eq_some (e : GeoEntry) (coords : LatLng) :
    geoAccept e = some coords ↔
      truthyJV e.latitude = true ∧ truthyJV e.longitude = true ∧
      jsParseFloatJV e.latitude = some coords.latitude ∧
      jsParseFloatJV e.longitude = some coords.longitude := by
  unfold geoAccept
  split
  case isTrue ht =>
    rcases Bool.and_eq_true_iff.mp ht with ⟨ht1, ht2⟩
    cases hlat : jsParseFloatJV e.latitude with
    | none => simp [hlat, ht1, ht2]
    | some lat =>
      cases hlng : jsParseFloatJV e.longitude with
      | none => simp [hlat, hlng, ht1, ht2]
      | some lng =>
        simp only [hlat, hlng, ht1, ht2, Option.some.injEq, true_and]
        constructor
        · rintro rfl
          exact ⟨rfl, rfl⟩
        · rintro ⟨h1, h2⟩
          cases coords
          cases h1
          cases h2
          rfl
  case isFalse ht =>
    rw [Bool.and_eq_true_iff] at ht
    constructor
    · rintro ⟨⟩
    · rintro ⟨h1, h2, -⟩
      exact absurd ⟨h1, h2⟩ ht

/-- C5 as amended: with a non-empty request batch and a well-formed response
object, a pair is accepted into the returned mapping iff both of its
properties are *truthy* (so in particular non-zero, non-empty) and both
`parseFloat` to numbers.  A numerically valid pair whose latitude or
longitude is the JSON number `0` fails the truthiness guard and is
dropped. -/
theorem geocode_accept_iff (businesses : List (String × String))
    (data : List (String × GeoEntry)) (id : String) (coords : LatLng)
    (hbs : businesses ≠ []) :
    (id, coords) ∈ geocodeAddresses businesses (.ok data) ↔
      ∃ e, (id, e) ∈ data ∧
        truthyJV e.latitude = true ∧ truthyJV e.longitude = true ∧
        jsParseFloatJV e.latitude = some coords.latitude ∧
        jsParseFloatJV e.longitude = some coords.longitude := by
  unfold geocodeAddresses
  rw [if_neg (by simpa using hbs)]
  rw [List.mem_filterMap]
  constructor
  · rintro ⟨⟨pid, e⟩, hp, hsome⟩
    rcases Option.map_eq_some'.mp hsome with ⟨c, hc, hpair⟩
    cases hpair
    exact ⟨e, hp, (geoAccept_eq_some e coords).mp hc⟩
  · rintro ⟨e, he, h1, h2, h3, h4⟩
    exact ⟨(id, e), he, by rw [(geoAccept_eq_some e coords).mpr ⟨h1, h2, h3, h4⟩]; rfl⟩

/-- C5, witness for the amended statement: a latitude sent as the string
`"0"` is truthy, parses to `0`, and is accepted. -/
theorem geocode_accept_iff_witness :
    ("a", ({ latitude := ⟨0, 0⟩, longitude := ⟨5, 0⟩ } : LatLng)) ∈
      geocodeAddresses [("a", "x")]
        (.ok [("a", { latitude := some (.str "0"), longitude := some (.num ⟨5, 0⟩) })]) :=
  (geocode_accept_iff [("a", "x")] _ "a" _ (by decide)).mpr
    ⟨{ latitude := some (.str "0"), longitude := some (.num ⟨5, 0⟩) },
      by decide, by decide, by decide, by decide, by decide⟩

/-! ## C8 — the Contact Extractor does not de-duplicate -/

/-- C8, counterexample to the claim as stated: a backend response whose
`emails` array repeats a string is passed through with the duplicate kept. -/
theorem scrape_keeps_duplicates :
    scrapeContacts (fun _ => some { emails := some ["a", "a"] }) "http://x" =
      .ok { emails := ["a", "a"], phones := [], socials := [] } ∧
    ¬ (["a", "a"] : List String).Nodup := by
  constructor
  · decide
  · decide

/-- C8 as amended: on an accepted response the extractor returns the
backend's arrays unchanged, defaulting a missing key to `[]`; it performs no
de-duplication, so each returned collection is duplicate-free exactly when
the backend's array was. -/
theorem scrape_ok_passthrough (oracle : ScrapeOracle) (url : String)
    (raw : ScrapeRaw) (h1 : oracle url = some raw) (h2 : url ≠ "")
    (h3 : startsWithL "http".data url.data = true) :
    scrapeContacts oracle url =
      .ok { emails := raw.emails.getD [], phones := raw.phones.getD [],
            socials := raw.socials.getD [] } ∧
    ∀ b, scrapeContacts oracle url = .ok b →
      ((b.emails.Nodup ↔ (raw.emails.getD []).Nodup) ∧
       (b.phones.Nodup ↔ (raw.phones.getD []).Nodup) ∧
       (b.socials.Nodup ↔ (raw.socials.getD []).Nodup)) := by
  have hok : scrapeContacts oracle url =
      .ok { emails := raw.emails.getD [], phones := raw.phones.getD [],
            socials := raw.socials.getD [] } := by
    unfold scrapeContacts
    rw [if_neg (by simp [h2, h3]), h1]
  refine ⟨hok, ?_⟩
  intro b hb
  rw [hok] at hb
  cases hb
  exact ⟨Iff.rfl, Iff.rfl, Iff.rfl⟩

/-- C8, witness for the amended statement: a singleton response passes
through as-is, with missing keys defaulted to empty arrays. -/
theorem scrape_ok_passthrough_witness :
    scrapeContacts (fun _ => some { emails := some ["a"] }) "http://x" =
      .ok { emails := ["a"], phones := [], socials := [] } :=
  (scrape_ok_passthrough (fun _ => some { emails := some ["a"] }) "http://x"
    { emails := some ["a"] } rfl (by decide) (by decide)).1

/-! ## C6 — what the rating line actually extracts -/

/-- C6, counterexample to the claim as stated: on the line
`- Rating: 10 (3 reviews)` the regex `/(\d\.\d|\d)/` matches only the first
digit, so the parsed rating is `1`, not `10` (the review count `3` is still
extracted independently). -/
theorem rating_ten_parses_as_one :
    (parseLeads 0 "Biz\n- Address: 1 Main St\n- Rating: 10 (3 reviews)").map
        (fun b => (b.rating, b.reviews)) = [(some ⟨1, 0⟩, some 3)] ∧
    (⟨1, 0⟩ : JsNum).toRat = 1 ∧ (⟨10, 0⟩ : JsNum).toRat = 10 ∧ (1 : ℚ) ≠ 10 := by
  refine ⟨by decide, ?_, ?_, by norm_num⟩ <;> norm_num [JsNum.toRat]

/-- C6 as amended: on a line classified `rating:`, the rating is set from the
first match of the one-digit-or-digit-dot-digit pattern `/(\d\.\d|\d)/` (so
`"10"` yields `1`, the first digit, and `"4.5"` yields `4.5`), and the review
count from the capture of `/\((\d+)/`; either may be absent independently,
each leaving its own field untouched without affecting the other. -/
theorem rating_line_extraction (lead : Business) (line : List Char)
    (h : lineClass line = some LineField.rating) :
    ((applyLine lead line).rating =
      match ratingMatchTok (trimL (afterFirstColon line)) with
      | some tok => jsParseFloat tok
      | none => lead.rating) ∧
    ((applyLine lead line).reviews =
      match reviewsMatchTok (trimL (afterFirstColon line)) with
      | some ds => some (digitsToNat ds)
      | none => lead.reviews) ∧
    ratingMatchTok "10".data = some ['1'] ∧
    ratingMatchTok "4.5".data = some "4.5".data ∧
    jsParseFloat ['1'] = some ⟨1, 0⟩ := by
  rw [applyLine_eq_applyClass, h]
  simp only [applyClass, ratingApply]
  refine ⟨?_, ?_, by decide, by decide, by decide⟩
  · cases hr : ratingMatchTok (trimL (afterFirstColon line)) <;>
      cases hv : reviewsMatchTok (trimL (afterFirstColon line)) <;>
      simp [hr, hv]
  · cases hr : ratingMatchTok (trimL (afterFirstColon line)) <;>
      cases hv : reviewsMatchTok (trimL (afterFirstColon line)) <;>
      simp [hr, hv]

/-- C6, witness for the amended statement: the concrete line
`- Rating: 10 (3 reviews)` on a fresh record yields rating `1` and review
count `3`. -/
theorem rating_line_extraction_witness :
    (applyLine (initLead "i" "N") "- Rating: 10 (3 reviews)".data).rating =
        (match ratingMatchTok (trimL (afterFirstColon "- Rating: 10 (3 reviews)".data)) with
          | some tok => jsParseFloat tok
          | none => (initLead "i" "N").rating) ∧
      (applyLine (initLead "i" "N") "- Rating: 10 (3 reviews)".data).reviews =
        (match reviewsMatchTok (trimL (afterFirstColon "- Rating: 10 (3 reviews)".data)) with
          | some ds => some (digitsToNat ds)
          | none => (initLead "i" "N").reviews) := by
  have h := rating_line_extraction (initLead "i" "N") "- Rating: 10 (3 reviews)".data
    (by decide)
  exact ⟨h.1, h.2.1⟩

/-! ## C7 — when scanning order does and does not matter -/

/-- C7, counterexample to the claim as stated: two lines classified to the
same field are order-sensitive — a later line overwrites an earlier one, so
permuting the lines after the name line can change the parsed record. -/
theorem scan_order_matters :
    parseSegment "i" "N\naddress: A\naddress: B".data ≠
      parseSegment "i" "N\naddress: B\naddress: A".data ∧
    List.Perm "N\naddress: B\naddress: A".data "N\naddress: A\naddress: B".data := by
  constructor
  · decide
  · decide

/-- Scans of lines classified to different fields (or to none) commute. -/
theorem applyClass_comm (f g : Option LineField) (x y : List Char) (z : Business)
    (h : f = none ∨ g = none ∨ f ≠ g) :
    applyClass g y (applyClass f x z) = applyClass f x (applyClass g y z) := by
  rcases h with rfl | rfl | h
  · simp [applyClass]
  · simp [applyClass]
  · rcases f with _ | f
    · simp [applyClass]
    rcases g with _ | g
    · simp [applyClass]
    cases f <;> cases g <;>
      first
        | exact absurd rfl h
        | (simp only [applyClass, coordsApply, ratingApply]
           repeat' split
           all_goals rfl)

/-- C7 as amended: the scan of the lines after the name line is invariant
under permutation *provided* no two distinct lines are classified to the same
field; with duplicate labels the last scanned line wins and order matters
(`scan_order_matters`). -/
theorem scan_perm_invariant (lead : Business) (lines1 lines2 : List (List Char))
    (hperm : List.Perm lines1 lines2)
    (hdist : ∀ x ∈ lines1, ∀ y ∈ lines1,
      x = y ∨ lineClass x = none ∨ lineClass y = none ∨ lineClass x ≠ lineClass y) :
    lines1.foldl applyLine lead = lines2.foldl applyLine lead := by
  refine hperm.foldl_eq' ?_ lead
  intro x hx y hy z
  simp only [applyLine_eq_applyClass]
  rcases hdist x hx y hy with rfl | h | h | h
  · rfl
  · exact applyClass_comm (lineClass x) (lineClass y) x y z (Or.inl h)
  · exact applyClass_comm (lineClass x) (lineClass y) x y z (Or.inr (Or.inl h))
  · exact applyClass_comm (lineClass x) (lineClass y) x y z (Or.inr (Or.inr h))

/-- C7, witness for the amended statement: an address line and a phone line
scan to the same record in either order. -/
theorem scan_perm_invariant_witness :
    ["- Address: 1 A".data, "- Phone: 5".data].foldl applyLine (initLead "i" "N") =
      ["- Phone: 5".data, "- Address: 1 A".data].foldl applyLine (initLead "i" "N") :=
  scan_perm_invariant (initLead "i" "N") _ _ (by decide) (by decide)

/-! ## C9 — "scrape all" is idempotent -/

/-- Every failure message `scrapeContacts` can produce is a non-empty string
(so the recorded `scrapeError` is truthy for the guard). -/
theorem scrapeContacts_error_nonempty (oracle : ScrapeOracle) (url msg : String)
    (h : scrapeContacts oracle url = .error msg) : msg ≠ "" := by
  unfold scrapeContacts at h
  split at h
  · cases h
    decide
  · split at h
    · cases h
      intro hcon
      have hdata := congrArg String.data hcon
      rw [String.data_append] at hdata
      cases hdata
    · cases h

/-- After `handleScrape` on an id, every record either fails the scrape-all
guard or is an unchanged record with a different id. -/
theorem handleScrape_mem (oracle : ScrapeOracle) (bid url : String)
    (cur : List Business) (l : Business)
    (hl : l ∈ handleScrape oracle bid url cur) :
    scrapeAllGuard l = false ∨ (l ∈ cur ∧ l.id ≠ bid) := by
  unfold handleScrape scrapeFinish scrapeStart at hl
  rw [List.map_map] at hl
  rcases List.mem_map.mp hl with ⟨x0, hx0, rfl⟩
  by_cases hid : x0.id = bid
  · left
    simp only [Function.comp_apply, hid, if_true, if_pos]
    cases hres : scrapeContacts oracle url with
    | ok d => simp [scrapeAllGuard]
    | error msg =>
      have hmsg := scrapeContacts_error_nonempty oracle url msg hres
      simp [scrapeAllGuard, truthyStr, hmsg]
  · right
    constructor
    · simpa [Function.comp, hid] using hx0
    · simp [Function.comp, hid]

/-- After one pass of the scrape-all loop, every record that was still
eligible in the snapshot has been resolved: no record of the final state
passes the guard. -/
theorem scrapeAllGo_all_done (oracle : ScrapeOracle) :
    ∀ snap cur, (∀ l ∈ cur, scrapeAllGuard l = false ∨ l ∈ snap) →
      ∀ l ∈ (scrapeAllGo oracle snap cur).1, scrapeAllGuard l = false := by
  intro snap
  induction snap with
  | nil =>
    intro cur h l hl
    rcases h l hl with hf | hmem
    · exact hf
    · cases hmem
  | cons s rest ih =>
    intro cur h l hl
    by_cases hg : scrapeAllGuard s = true
    · simp only [scrapeAllGo, if_pos hg] at hl
      refine ih _ ?_ l hl
      intro x hx
      rcases handleScrape_mem oracle s.id (s.website.getD "") cur x hx with hf | ⟨hmem, hne⟩
      · exact Or.inl hf
      · rcases h x hmem with hf | hmem2
        · exact Or.inl hf
        · rcases List.mem_cons.mp hmem2 with rfl | hmem3
          · exact absurd rfl hne
          · exact Or.inr hmem3
    · simp only [scrapeAllGo, if_neg hg] at hl
      refine ih _ ?_ l hl
      intro x hx
      rcases h x hx with hf | hmem2
      · exact Or.inl hf
      · rcases List.mem_cons.mp hmem2 with rfl | hmem3
        · exact Or.inl (Bool.not_eq_true _ ▸ hg)
        · exact Or.inr hmem3

/-- A scrape-all pass whose snapshot contains no eligible record changes
nothing and makes no backend call. -/
theorem scrapeAllGo_skip (oracle : ScrapeOracle) :
    ∀ snap cur, (∀ l ∈ snap, scrapeAllGuard l = false) →
      scrapeAllGo oracle snap cur = (cur, 0) := by
  intro snap
  induction snap with
  | nil => intro cur _; rfl
  | cons s rest ih =>
    intro cur h
    have hs : scrapeAllGuard s = false := h s (List.mem_cons_self s rest)
    simp only [scrapeAllGo, hs]
    exact ih cur (fun l hl => h l (List.mem_cons_of_mem s hl))

/-- C9.  One completed "scrape all" run resolves every record with a website
to either a contact bundle or a recorded failure (the guard rejects all of
them afterwards), so a second "scrape all" over the resulting set performs
zero backend calls. -/
theorem scrapeAll_idempotent (oracle : ScrapeOracle) (leads : List Business) :
    (∀ l ∈ (handleScrapeAll oracle leads).1, scrapeAllGuard l = false) ∧
    (handleScrapeAll oracle (handleScrapeAll oracle leads).1).2 = 0 := by
  have hdone : ∀ l ∈ (handleScrapeAll oracle leads).1, scrapeAllGuard l = false :=
    scrapeAllGo_all_done oracle leads leads (fun l hl => Or.inr hl)
  refine ⟨hdone, ?_⟩
  have hskip : handleScrapeAll oracle (handleScrapeAll oracle leads).1 =
      ((handleScrapeAll oracle leads).1, 0) :=
    scrapeAllGo_skip oracle _ _ hdone
  rw [hskip]

end LeadFinderPro
